import Mathlib

/-!
Shallow embedding of the watch-party repository's session-synchronization
core, together with theorems checking the natural-language specification
against it.

Embedded source files:
- src/src/lib/tmdbApi.ts (second document in the file): the in-memory
  RoomStore (createRoom, getRoom, joinRoom, leaveRoom, updateVideo,
  updateVideoState, scheduleRoomCleanup, resetCleanupTimer) and ChatStore
  (addMessage, getMessages).
- src/src/app/api/rooms/[roomId]/route.ts (first document): the POST
  handler dispatching on the action field.
- src/unnamed/part_001: DatabaseService.getMessages (order by created_at
  descending, limit, then reverse).
- src/unnamed/part_004: the VideoPlayer syncVideo reconciliation callback.

JavaScript Maps become association lists, timers become an explicit set of
pending cleanup roomIds plus an explicit timer-fire transition, Date.now()
becomes a Nat parameter threaded by the caller, and float positions become
rationals.
-/

namespace WatchParty

/-- Video reference type tag, from src/src/types/index.ts. -/
inductive VideoKind where
  | youtube
  | local
  | movie
  | tv
deriving Repr, DecidableEq

/-- Video reference, from src/src/types/index.ts. -/
structure Video where
  id : String
  title : String
  kind : VideoKind
  url : String
  thumbnail : Option String := none
deriving Repr, DecidableEq

/-- Room member, from src/src/types/index.ts (User interface). -/
structure User where
  id : String
  name : String
  isHost : Bool
deriving Repr, DecidableEq

/-- Room row, as constructed by RoomStore.createRoom in
src/src/lib/tmdbApi.ts: id, name, currentVideo, users, isPlaying,
currentTime, createdAt. -/
structure Room where
  id : String
  name : String
  currentVideo : Option Video
  users : List User
  isPlaying : Bool
  currentTime : Rat
  createdAt : Nat
deriving Repr, DecidableEq

/-- The RoomStore state from src/src/lib/tmdbApi.ts: the rooms Map, the
set of roomIds holding a scheduled cleanup timer (roomCleanupTimers keys),
and the roomActivity Map. -/
structure RoomStore where
  rooms : List (String × Room)
  cleanupPending : List String
  roomActivity : List (String × Nat)
deriving Repr, DecidableEq

/-- The store a fresh server process starts with (new RoomStore()). -/
def emptyStore : RoomStore := ⟨[], [], []⟩

/-- Map.get on the rooms association list. -/
def findRoom? (s : RoomStore) (roomId : String) : Option Room :=
  (s.rooms.find? (fun p => p.1 = roomId)).map (·.2)

/-- Map.set on the rooms association list: the binding for roomId is
replaced (modelled as cons plus removal of any previous binding). -/
def setRoom (s : RoomStore) (roomId : String) (room : Room) : RoomStore :=
  { s with rooms := (roomId, room) :: s.rooms.filter (fun p => ¬ p.1 = roomId) }

/-- RoomStore.updateActivity: roomActivity.set(roomId, Date.now()). -/
def updateActivity (s : RoomStore) (roomId : String) (now : Nat) : RoomStore :=
  { s with roomActivity := (roomId, now) :: s.roomActivity.filter (fun p => ¬ p.1 = roomId) }

/-- RoomStore.resetCleanupTimer: an existing cleanup timer for roomId is
cleared and its entry removed. -/
def resetCleanupTimer (s : RoomStore) (roomId : String) : RoomStore :=
  { s with cleanupPending := s.cleanupPending.filter (fun x => ¬ x = roomId) }

/-- RoomStore.scheduleRoomCleanup: any existing timer is cleared and a
fresh 5-minute deletion timer is scheduled for roomId. -/
def scheduleRoomCleanup (s : RoomStore) (roomId : String) : RoomStore :=
  { s with cleanupPending := roomId :: s.cleanupPending.filter (fun x => ¬ x = roomId) }

/-- The body of the setTimeout callback inside scheduleRoomCleanup (it can
only run while the timer is still pending, i.e. not cleared): if the room
still exists and is still empty it is deleted together with its activity
entry; in either case the timer entry is removed. -/
def cleanupTimerFire (s : RoomStore) (roomId : String) : RoomStore :=
  if roomId ∈ s.cleanupPending then
    match findRoom? s roomId with
    | some room =>
      if room.users.length = 0 then
        { rooms := s.rooms.filter (fun p => ¬ p.1 = roomId),
          cleanupPending := s.cleanupPending.filter (fun x => ¬ x = roomId),
          roomActivity := s.roomActivity.filter (fun p => ¬ p.1 = roomId) }
      else
        { s with cleanupPending := s.cleanupPending.filter (fun x => ¬ x = roomId) }
    | none =>
      { s with cleanupPending := s.cleanupPending.filter (fun x => ¬ x = roomId) }
  else s

/-- RoomStore.createRoom: builds a fresh Room with hostUser as sole user
and stores it under roomId, unconditionally; then updates activity and
resets the cleanup timer. -/
def createRoom (s : RoomStore) (now : Nat) (roomId roomName : String) (hostUser : User) :
    RoomStore × Room :=
  let room : Room :=
    { id := roomId, name := roomName, currentVideo := none, users := [hostUser],
      isPlaying := false, currentTime := 0, createdAt := now }
  (resetCleanupTimer (updateActivity (setRoom s roomId room) roomId now) roomId, room)

/-- RoomStore.getRoom: looks the room up and, when found, refreshes its
activity timestamp. -/
def getRoom (s : RoomStore) (now : Nat) (roomId : String) : RoomStore × Option Room :=
  match findRoom? s roomId with
  | some room => (updateActivity s roomId now, some room)
  | none => (s, none)

/-- RoomStore.joinRoom: none when the room is absent; otherwise any prior
row of the same user id is removed (reconnection) and the user is pushed
at the end of the users array. -/
def joinRoom (s : RoomStore) (now : Nat) (roomId : String) (user : User) :
    RoomStore × Option Room :=
  match findRoom? s roomId with
  | none => (s, none)
  | some room =>
    let room' := { room with users := room.users.filter (fun u => ¬ u.id = user.id) ++ [user] }
    (resetCleanupTimer (updateActivity (setRoom s roomId room') roomId now) roomId,
     some room')

/-- Sets isHost of the first list entry to true (room.users[0].isHost = true). -/
def promoteFirst : List User → List User
  | [] => []
  | u :: rest => { u with isHost := true } :: rest

/-- RoomStore.leaveRoom: none when the room is absent; otherwise removes
the user row. If the room became empty a cleanup timer is scheduled;
otherwise, when no host remains, the first remaining user is promoted, and
activity/cleanup-timer are refreshed. -/
def leaveRoom (s : RoomStore) (now : Nat) (roomId userId : String) :
    RoomStore × Option Room :=
  match findRoom? s roomId with
  | none => (s, none)
  | some room =>
    let remaining := room.users.filter (fun u => ¬ u.id = userId)
    if remaining.length = 0 then
      let room' := { room with users := remaining }
      (scheduleRoomCleanup (setRoom s roomId room') roomId, some room')
    else
      let hasHost := remaining.any (fun u => u.isHost)
      let users' := if hasHost then remaining else promoteFirst remaining
      let room' := { room with users := users' }
      (resetCleanupTimer (updateActivity (setRoom s roomId room') roomId now) roomId,
       some room')

/-- RoomStore.updateVideo: replaces the current video reference (possibly
with null) and resets currentTime to 0 and isPlaying to false. -/
def updateVideo (s : RoomStore) (now : Nat) (roomId : String) (video : Option Video) :
    RoomStore × Option Room :=
  match findRoom? s roomId with
  | none => (s, none)
  | some room =>
    let room' := { room with currentVideo := video, currentTime := 0, isPlaying := false }
    (resetCleanupTimer (updateActivity (setRoom s roomId room') roomId now) roomId,
     some room')

/-- RoomStore.updateVideoState: overwrites isPlaying and currentTime. -/
def updateVideoState (s : RoomStore) (now : Nat) (roomId : String)
    (isPlaying : Bool) (currentTime : Rat) : RoomStore × Option Room :=
  match findRoom? s roomId with
  | none => (s, none)
  | some room =>
    let room' := { room with isPlaying := isPlaying, currentTime := currentTime }
    (resetCleanupTimer (updateActivity (setRoom s roomId room') roomId now) roomId,
     some room')

/-- Number of members whose host flag is set. -/
def countHosts (l : List User) : Nat := l.countP (fun u => u.isHost)

/-- A room-lifecycle request as the API layer hands it to the store:
create builds the member with isHost true, join with isHost false
(src/src/app/api/rooms/[roomId]/route.ts, create and join cases). -/
inductive RoomOp where
  | create (now : Nat) (roomId roomName userId userName : String)
  | join (now : Nat) (roomId userId userName : String)
  | leave (now : Nat) (roomId userId : String)
deriving Repr, DecidableEq

/-- Applies one lifecycle request to the store. -/
def applyOp (s : RoomStore) : RoomOp → RoomStore
  | RoomOp.create now roomId roomName userId userName =>
      (createRoom s now roomId roomName ⟨userId, userName, true⟩).1
  | RoomOp.join now roomId userId userName =>
      (joinRoom s now roomId ⟨userId, userName, false⟩).1
  | RoomOp.leave now roomId userId =>
      (leaveRoom s now roomId userId).1

/-- Applies a whole sequence of lifecycle requests. -/
def applyOps (s : RoomStore) (ops : List RoomOp) : RoomStore := ops.foldl applyOp s

/-- Every room row in the store has at most one host-flagged member. -/
def HostInvariant (s : RoomStore) : Prop :=
  ∀ p ∈ s.rooms, countHosts p.2.users ≤ 1

/-- The JSON body of a POST to /api/rooms/[roomId]
(src/src/app/api/rooms/[roomId]/route.ts destructures action, user, video,
isPlaying, currentTime, roomName; the client additionally sends
targetUserId for promoteUser/demoteUser, which the handler ignores). -/
structure PostBody where
  action : String
  user : User
  video : Option Video := none
  isPlaying : Bool := false
  currentTime : Rat := 0
  roomName : String := ""
  targetUserId : String := ""
deriving Repr, DecidableEq

/-- What a handler invocation produced: the HTTP status and the room JSON
payload (none for error responses). -/
structure ApiResponse where
  status : Nat
  room : Option Room
deriving Repr, DecidableEq

/-- The POST handler of src/src/app/api/rooms/[roomId]/route.ts: a switch
on the action string. The create case forces isHost to true on the body's
user, the join case forces isHost to false; leave uses only the user id;
updateVideo and updateState never consult the user at all; any other
action falls to the default case, a 400 Invalid-action response. -/
def apiPost (s : RoomStore) (now : Nat) (roomId : String) (b : PostBody) :
    RoomStore × ApiResponse :=
  if b.action = "create" then
    let hostUser : User := { id := b.user.id, name := b.user.name, isHost := true }
    let (s', room) := createRoom s now roomId b.roomName hostUser
    (s', { status := 200, room := some room })
  else if b.action = "join" then
    let joinUser : User := { id := b.user.id, name := b.user.name, isHost := false }
    match joinRoom s now roomId joinUser with
    | (s', none) => (s', { status := 404, room := none })
    | (s', some room) => (s', { status := 200, room := some room })
  else if b.action = "leave" then
    match leaveRoom s now roomId b.user.id with
    | (s', none) => (s', { status := 404, room := none })
    | (s', some room) => (s', { status := 200, room := some room })
  else if b.action = "updateVideo" then
    match updateVideo s now roomId b.video with
    | (s', none) => (s', { status := 404, room := none })
    | (s', some room) => (s', { status := 200, room := some room })
  else if b.action = "updateState" then
    match updateVideoState s now roomId b.isPlaying b.currentTime with
    | (s', none) => (s', { status := 404, room := none })
    | (s', some room) => (s', { status := 200, room := some room })
  else
    (s, { status := 400, room := none })

/-! Chat: the in-memory ChatStore of src/src/lib/tmdbApi.ts and the
getMessages query of src/unnamed/part_001 (DatabaseService). -/

/-- Chat message, from src/src/types/index.ts (timestamp as Nat). -/
structure ChatMessage where
  id : String
  userId : String
  username : String
  message : String
  timestamp : Nat
deriving Repr, DecidableEq

/-- ChatStore.addMessage on one room's message array: push, then splice
away all but the last 100 entries. -/
def addMessage (msgs : List ChatMessage) (m : ChatMessage) : List ChatMessage :=
  let msgs' := msgs ++ [m]
  if msgs'.length > 100 then msgs'.drop (msgs'.length - 100) else msgs'

/-- A room's ChatStore message array after appending a whole history in
order into an initially empty store. -/
def chatStoreState (history : List ChatMessage) : List ChatMessage :=
  history.foldl addMessage []

/-- The ORDER BY created_at DESC relation used by the getMessages query:
a precedes b when its timestamp is the later one. -/
def msgDesc (a b : ChatMessage) : Prop := b.timestamp ≤ a.timestamp

instance : DecidableRel msgDesc := fun a b => Nat.decLe b.timestamp a.timestamp

instance : IsTotal ChatMessage msgDesc :=
  ⟨fun a b => (Nat.le_total b.timestamp a.timestamp)⟩

instance : IsTrans ChatMessage msgDesc :=
  ⟨fun _ _ _ hab hbc => Nat.le_trans hbc hab⟩

/-- DatabaseService.getMessages: select the room's rows ordered by
created_at descending, limited to the first `limit` rows, then reverse the
page so it reads in ascending timestamp order. -/
def getMessages (stored : List ChatMessage) (limit : Nat := 100) : List ChatMessage :=
  ((stored.insertionSort msgDesc).take limit).reverse

/-! The VideoPlayer syncVideo callback of src/unnamed/part_004. -/

/-- Observed state of the local HTML video element. -/
structure VideoElement where
  currentTime : Rat
  seeking : Bool
  readyState : Nat
  paused : Bool
deriving Repr, DecidableEq

/-- Everything syncVideo reads: the component props (video, isPlaying,
currentTime — the authoritative tuple), component state (isReady,
isMobile, isScrolling), the YouTube player ref (present flag, current
time, player state), the video element ref (present flag plus element
state), and the clock pair now/lastSync. -/
structure SyncInput where
  video : Option Video
  isPlaying : Bool
  currentTime : Rat
  isReady : Bool
  isMobile : Bool
  isScrolling : Bool
  ytPresent : Bool
  ytCurrentTime : Rat
  ytPlayerState : Int
  elPresent : Bool
  el : VideoElement
  now : Nat
  lastSync : Nat
deriving Repr, DecidableEq

/-- The externally visible effects of one syncVideo invocation: the seek
issued (seekTo on YouTube, currentTime assignment on the element), the
play and pause calls, the setIsBuffering update, and whether
lastSyncTimeRef was advanced to now. -/
structure SyncResult where
  seekTo : Option Rat := none
  playIssued : Bool := false
  pauseIssued : Bool := false
  setBuffering : Option Bool := none
  lastSyncUpdated : Bool := false
deriving Repr, DecidableEq

/-- True when the prop video is present with the given type tag. -/
def videoKindIs (v : Option Video) (k : VideoKind) : Bool :=
  match v with
  | some video => video.kind = k
  | none => false

/-- syncVideo from src/unnamed/part_004 lines 131-195, as a function from
its reads to its effects. The frequency gate returns early; the YouTube
branch has no guard; the local branch updates the buffering flag, returns
early when seeking, mobile-and-buffering, or scrolling, and otherwise
seeks on drift above threshold and reconciles play/pause. -/
def syncVideo (i : SyncInput) : SyncResult :=
  let syncFrequency : Nat := if i.isMobile then 2000 else 1000
  if i.now - i.lastSync < syncFrequency then {}
  else if videoKindIs i.video VideoKind.youtube && i.ytPresent && i.isReady then
    let timeDiff := |i.ytCurrentTime - i.currentTime|
    let syncThreshold : Rat := if i.isMobile then 3 else 2
    let isCurrentlyPlaying := i.ytPlayerState = 1
    { seekTo := if timeDiff > syncThreshold then some i.currentTime else none,
      playIssued := i.isPlaying && ¬ isCurrentlyPlaying,
      pauseIssued := ¬ i.isPlaying && isCurrentlyPlaying,
      setBuffering := none,
      lastSyncUpdated := true }
  else if videoKindIs i.video VideoKind.local && i.elPresent then
    let timeDiff := |i.el.currentTime - i.currentTime|
    let syncThreshold : Rat := if i.isMobile then 4 else 2
    let isActuallyBuffering := i.el.readyState < 2
    if i.el.seeking || (i.isMobile && isActuallyBuffering) || i.isScrolling then
      { setBuffering := some isActuallyBuffering }
    else
      { seekTo := if timeDiff > syncThreshold then some i.currentTime else none,
        playIssued := i.isPlaying && i.el.paused,
        pauseIssued := ¬ i.isPlaying && ¬ i.el.paused,
        setBuffering := some isActuallyBuffering,
        lastSyncUpdated := true }
  else {}

/-! Concrete fixtures used by witnesses and counterexamples. -/

def alice : User := ⟨"a", "Alice", true⟩

def bob : User := ⟨"b", "Bob", false⟩

def carol : User := ⟨"c", "Carol", false⟩

def v1 : Video := ⟨"v1", "Movie One", VideoKind.local, "https://ex/v1", none⟩

def v2 : Video := ⟨"v2", "Movie Two", VideoKind.local, "https://ex/v2", none⟩

/-- A store holding room r with members Alice (host, joined first) and Bob. -/
def store2 : RoomStore :=
  (joinRoom (createRoom emptyStore 0 "r" "Watch Party Room" alice).1 1 "r" bob).1

/-- The room row of store2. -/
def room2 : Room :=
  { id := "r", name := "Watch Party Room", currentVideo := none,
    users := [alice, bob], isPlaying := false, currentTime := 0, createdAt := 0 }

/-- store2 with Carol joined as well (join order Alice, Bob, Carol). -/
def store3 : RoomStore := (joinRoom store2 2 "r" carol).1

/-- The room row of store3. -/
def room3 : Room :=
  { id := "r", name := "Watch Party Room", currentVideo := none,
    users := [alice, bob, carol], isPlaying := false, currentTime := 0, createdAt := 0 }

/-- store2 with video v1 selected and playback running at position 120. -/
def storePlaying : RoomStore :=
  (updateVideoState (updateVideo store2 3 "r" (some v1)).1 4 "r" true 120).1

/-- The room row of storePlaying. -/
def roomPlaying : Room :=
  { id := "r", name := "Watch Party Room", currentVideo := some v1,
    users := [alice, bob], isPlaying := true, currentTime := 120, createdAt := 0 }

/-- The room produced by the op sequence create(r, host a) then join(b). -/
def roomAB : Room :=
  { id := "r", name := "Room", currentVideo := none,
    users := [⟨"a", "A", true⟩, ⟨"b", "B", false⟩],
    isPlaying := false, currentTime := 0, createdAt := 0 }

/-- A store holding room r whose sole member is Alice, with video v1 set. -/
def storeSolo : RoomStore :=
  (updateVideo (createRoom emptyStore 0 "r" "Room" alice).1 1 "r" (some v1)).1

/-- The room row of storeSolo. -/
def roomSolo : Room :=
  { id := "r", name := "Room", currentVideo := some v1,
    users := [alice], isPlaying := false, currentTime := 0, createdAt := 0 }

/-- A desktop viewer tick on a local-file video with drift 0.5s (viewer at
100.5, authoritative 101), no guard active. -/
def smallDriftTick : SyncInput :=
  { video := some v1, isPlaying := true, currentTime := 101, isReady := true,
    isMobile := false, isScrolling := false, ytPresent := false, ytCurrentTime := 0,
    ytPlayerState := 2, elPresent := true,
    el := { currentTime := 100.5, seeking := false, readyState := 4, paused := false },
    now := 2000, lastSync := 0 }

/-- A desktop viewer tick on a local-file video with drift 5s (viewer at
90, authoritative 95), no guard active. -/
def bigDriftTick : SyncInput :=
  { video := some v1, isPlaying := true, currentTime := 95, isReady := true,
    isMobile := false, isScrolling := false, ytPresent := false, ytCurrentTime := 0,
    ytPlayerState := 2, elPresent := true,
    el := { currentTime := 90, seeking := false, readyState := 4, paused := false },
    now := 2000, lastSync := 0 }

/-- A chat message with timestamp 5. -/
def m1 : ChatMessage := ⟨"1", "a", "A", "hi", 5⟩

/-- A chat message with timestamp 3. -/
def m2 : ChatMessage := ⟨"2", "b", "B", "yo", 3⟩

/-- A chat message with timestamp 9. -/
def m3 : ChatMessage := ⟨"3", "a", "A", "ok", 9⟩

/-- A mobile viewer tick on a local-file video where the element is
buffering (readyState 1), paused, while the authoritative state is
playing. -/
def bufferingTick : SyncInput :=
  { video := some v1, isPlaying := true, currentTime := 50, isReady := true,
    isMobile := true, isScrolling := false, ytPresent := false, ytCurrentTime := 0,
    ytPlayerState := 2, elPresent := true,
    el := { currentTime := 50, seeking := false, readyState := 1, paused := true },
    now := 4000, lastSync := 0 }

/-! Helper lemmas about the store primitives. -/

theorem find?_filter_of_imp {α : Type} (l : List α) (p q : α → Bool)
    (h : ∀ x, p x = true → q x = true) :
    (l.filter q).find? p = l.find? p := by
  induction l with
  | nil => rfl
  | cons a t ih =>
    by_cases hq : q a = true
    · by_cases hp : p a = true
      · simp [List.filter_cons, hq, List.find?_cons, hp]
      · simp only [Bool.not_eq_true] at hp
        simp [List.filter_cons, hq, List.find?_cons, hp, ih]
    · have hp : p a = false := by
        cases hpa : p a with
        | false => rfl
        | true => exact absurd (h a hpa) hq
      simp only [Bool.not_eq_true] at hq
      simp [List.filter_cons, hq, List.find?_cons, hp, ih]

theorem findRoom?_updateActivity (s : RoomStore) (roomId : String) (now : Nat)
    (rid : String) : findRoom? (updateActivity s roomId now) rid = findRoom? s rid := rfl

theorem findRoom?_resetCleanupTimer (s : RoomStore) (roomId rid : String) :
    findRoom? (resetCleanupTimer s roomId) rid = findRoom? s rid := rfl

theorem findRoom?_scheduleRoomCleanup (s : RoomStore) (roomId rid : String) :
    findRoom? (scheduleRoomCleanup s roomId) rid = findRoom? s rid := rfl

theorem findRoom?_setRoom_self (s : RoomStore) (roomId : String) (room : Room) :
    findRoom? (setRoom s roomId room) roomId = some room := by
  simp [findRoom?, setRoom, List.find?_cons]

theorem findRoom?_mem (s : RoomStore) (roomId : String) (room : Room)
    (h : findRoom? s roomId = some room) : (roomId, room) ∈ s.rooms := by
  unfold findRoom? at h
  cases hf : s.rooms.find? (fun p => p.1 = roomId) with
  | none => rw [hf] at h; simp at h
  | some p =>
    rw [hf] at h
    simp only [Option.map] at h
    have hmem := List.mem_of_find?_eq_some hf
    have hkey := List.find?_some hf
    simp only [decide_eq_true_eq] at hkey
    cases p with
    | mk k r =>
      simp only at hkey h
      subst hkey
      cases h
      exact hmem

theorem find?_key_filter_ne (l : List (String × Room)) (roomId : String) :
    (l.filter (fun p => decide ¬ (p.1 = roomId))).find? (fun p => p.1 = roomId) = none := by
  induction l with
  | nil => rfl
  | cons a t ih =>
    by_cases ha : a.1 = roomId
    · simp [List.filter_cons, ha, ih]
    · simp [List.filter_cons, ha, List.find?_cons, ih]

theorem countHosts_filter_le (l : List User) (q : User → Bool) :
    countHosts (l.filter q) ≤ countHosts l := by
  induction l with
  | nil => simp [countHosts]
  | cons a t ih =>
    by_cases hq : q a = true
    · simp only [countHosts, List.filter_cons, hq, if_true, List.countP_cons] at *
      omega
    · simp only [Bool.not_eq_true] at hq
      simp only [countHosts, List.filter_cons, hq, Bool.false_eq_true, if_false,
        List.countP_cons] at *
      omega

theorem countHosts_append (l₁ l₂ : List User) :
    countHosts (l₁ ++ l₂) = countHosts l₁ + countHosts l₂ := by
  simp [countHosts, List.countP_append]

theorem countHosts_promoteFirst (l : List User) (h : countHosts l = 0) (hne : l ≠ []) :
    countHosts (promoteFirst l) = 1 := by
  cases l with
  | nil => exact absurd rfl hne
  | cons u rest =>
    simp only [countHosts, List.countP_cons] at h ⊢
    simp only [promoteFirst, List.countP_cons]
    simp at h ⊢
    exact h.1

theorem countHosts_eq_zero_of_not_any (l : List User)
    (h : l.any (fun u => u.isHost) = false) : countHosts l = 0 := by
  induction l with
  | nil => rfl
  | cons a t ih =>
    simp only [List.any_cons, Bool.or_eq_false_iff] at h
    simp only [countHosts, List.countP_cons, h.1] at *
    simp [ih h.2]

theorem one_le_countHosts {l : List User} {b : User} (hb : b ∈ l) (hhb : b.isHost = true) :
    1 ≤ countHosts l := by
  have : 0 < countHosts l := List.countP_pos_iff.mpr ⟨b, hb, by simp [hhb]⟩
  omega

theorem two_le_countHosts {l : List User} {a b : User} (ha : a ∈ l) (hb : b ∈ l)
    (hne : a ≠ b) (hha : a.isHost = true) (hhb : b.isHost = true) :
    2 ≤ countHosts l := by
  induction l with
  | nil => cases ha
  | cons c t ih =>
    rcases List.mem_cons.mp ha with rfl | hat
    · rcases List.mem_cons.mp hb with rfl | hbt
      · exact absurd rfl hne
      · have h1 := one_le_countHosts hbt hhb
        simp only [countHosts, List.countP_cons, hha] at *
        simp only [if_true]
        omega
    · rcases List.mem_cons.mp hb with rfl | hbt
      · have h1 := one_le_countHosts hat hha
        simp only [countHosts, List.countP_cons, hhb] at *
        simp only [if_true]
        omega
      · have h2 := ih hat hbt
        simp only [countHosts, List.countP_cons] at *
        omega

theorem countHosts_filter_out_host (l : List User) (hm : User) (hmem : hm ∈ l)
    (hhost : hm.isHost = true) (hcount : countHosts l = 1) :
    countHosts (l.filter (fun x => decide ¬ (x.id = hm.id))) = 0 := by
  by_contra hne
  have hpos : 0 < (l.filter (fun x => decide ¬ (x.id = hm.id))).countP (fun u => u.isHost) :=
    Nat.pos_of_ne_zero hne
  obtain ⟨x, hx, hxh⟩ := List.countP_pos_iff.mp hpos
  have hxl : x ∈ l := List.mem_of_mem_filter hx
  have hxid : ¬ (x.id = hm.id) := by
    have := List.of_mem_filter hx
    simpa using this
  have hxne : x ≠ hm := fun he => hxid (by rw [he])
  have h2 := two_le_countHosts hxl hmem hxne (by simpa using hxh) hhost
  omega

theorem not_any_host_of_countHosts_eq_zero {l : List User} (h : countHosts l = 0) :
    l.any (fun u => u.isHost) = false := by
  by_contra hne
  have hany : l.any (fun u => u.isHost) = true := by
    cases ha : l.any (fun u => u.isHost) with
    | false => exact absurd ha hne
    | true => rfl
  obtain ⟨x, hx, hxh⟩ := List.any_eq_true.mp hany
  have := one_le_countHosts hx (by simpa using hxh)
  omega

theorem mem_setRoom {s : RoomStore} {roomId : String} {room : Room} {p : String × Room}
    (hp : p ∈ (setRoom s roomId room).rooms) : p = (roomId, room) ∨ p ∈ s.rooms := by
  simp only [setRoom, List.mem_cons] at hp
  rcases hp with h | h
  · exact Or.inl h
  · exact Or.inr (List.mem_of_mem_filter h)

theorem hostInvariant_setRoom {s : RoomStore} {roomId : String} {room : Room}
    (h : HostInvariant s) (hr : countHosts room.users ≤ 1) :
    HostInvariant (setRoom s roomId room) := by
  intro p hp
  rcases mem_setRoom hp with rfl | hmem
  · exact hr
  · exact h p hmem

theorem hostInvariant_createRoom {s : RoomStore} (now : Nat) (roomId roomName : String)
    (u : User) (h : HostInvariant s) :
    HostInvariant (createRoom s now roomId roomName u).1 := by
  have hone : countHosts [u] ≤ 1 := by
    cases hu : u.isHost <;> simp [countHosts, List.countP_cons, hu]
  exact hostInvariant_setRoom h hone

theorem hostInvariant_joinRoom {s : RoomStore} (now : Nat) (roomId : String) (user : User)
    (huser : user.isHost = false) (h : HostInvariant s) :
    HostInvariant (joinRoom s now roomId user).1 := by
  cases hf : findRoom? s roomId with
  | none => simp only [joinRoom, hf]; exact h
  | some room =>
    simp only [joinRoom, hf]
    have hroom : countHosts room.users ≤ 1 := h _ (findRoom?_mem _ _ _ hf)
    have hle : countHosts (room.users.filter (fun u => decide ¬ (u.id = user.id)) ++ [user]) ≤ 1 := by
      rw [countHosts_append]
      have h1 := countHosts_filter_le room.users (fun u => decide ¬ (u.id = user.id))
      have h2 : countHosts [user] = 0 := by simp [countHosts, List.countP_cons, huser]
      omega
    exact hostInvariant_setRoom h hle

theorem hostInvariant_leaveRoom {s : RoomStore} (now : Nat) (roomId userId : String)
    (h : HostInvariant s) :
    HostInvariant (leaveRoom s now roomId userId).1 := by
  cases hf : findRoom? s roomId with
  | none => simp only [leaveRoom, hf]; exact h
  | some room =>
    have hroom : countHosts room.users ≤ 1 := h _ (findRoom?_mem _ _ _ hf)
    have hfil : countHosts (room.users.filter (fun u => decide ¬ (u.id = userId))) ≤ 1 :=
      le_trans (countHosts_filter_le _ _) hroom
    simp only [leaveRoom, hf]
    split
    · exact hostInvariant_setRoom h hfil
    · split
      · exact hostInvariant_setRoom h hfil
      · rename_i hlen hany
        have hne : room.users.filter (fun u => decide ¬ (u.id = userId)) ≠ [] := by
          intro hnil
          exact hlen (by rw [hnil]; rfl)
        have hzero : countHosts (room.users.filter (fun u => decide ¬ (u.id = userId))) = 0 :=
          countHosts_eq_zero_of_not_any _ (Bool.eq_false_iff.mpr hany)
        have hone := countHosts_promoteFirst _ hzero hne
        refine hostInvariant_setRoom h ?_
        show countHosts
          (promoteFirst (room.users.filter (fun u => decide ¬ (u.id = userId)))) ≤ 1
        omega

theorem hostInvariant_applyOp (s : RoomStore) (op : RoomOp) (h : HostInvariant s) :
    HostInvariant (applyOp s op) := by
  cases op with
  | create now roomId roomName userId userName =>
    exact hostInvariant_createRoom now roomId roomName _ h
  | join now roomId userId userName =>
    exact hostInvariant_joinRoom now roomId _ rfl h
  | leave now roomId userId =>
    exact hostInvariant_leaveRoom now roomId userId h

theorem hostInvariant_applyOps (ops : List RoomOp) (s : RoomStore) (h : HostInvariant s) :
    HostInvariant (applyOps s ops) := by
  induction ops generalizing s with
  | nil => exact h
  | cons op rest ih => exact ih _ (hostInvariant_applyOp s op h)

/-! Claim theorems. -/

/-- C1: for every sequence of createRoom, joinRoom and leaveRoom requests
(with the host flag set by the API layer: true on create, false on join)
applied to a fresh store, every resulting room has at most one member
whose host flag is true whenever its member count is positive. -/
theorem c1_at_most_one_host (ops : List RoomOp) (roomId : String) (room : Room)
    (h : findRoom? (applyOps emptyStore ops) roomId = some room)
    (hpos : 0 < room.users.length) :
    countHosts room.users ≤ 1 := by
  have hinv : HostInvariant (applyOps emptyStore ops) := by
    refine hostInvariant_applyOps ops emptyStore ?_
    intro p hp
    simp [emptyStore] at hp
  exact hinv _ (findRoom?_mem _ _ _ h)

/-- C1 witness: after creating room r with host Alice and joining Bob, the
room has two members and at most one host. -/
theorem c1_at_most_one_host_witness :
    0 < roomAB.users.length ∧ countHosts roomAB.users ≤ 1 :=
  ⟨by decide,
   c1_at_most_one_host [RoomOp.create 0 "r" "Room" "a" "A", RoomOp.join 1 "r" "b" "B"]
     "r" roomAB (by decide) (by decide)⟩

/-- C6: for every room and every prior playback state, updateVideo —
including with a null video — replaces the current video reference, resets
the playback state to isPlaying = false and position 0, and leaves the
member list unchanged. -/
theorem c6_updateVideo_resets_playback (s : RoomStore) (now : Nat) (roomId : String)
    (video : Option Video) (room : Room) (h : findRoom? s roomId = some room) :
    (updateVideo s now roomId video).2 =
      some { room with currentVideo := video, isPlaying := false, currentTime := 0 } ∧
    findRoom? (updateVideo s now roomId video).1 roomId =
      some { room with currentVideo := video, isPlaying := false, currentTime := 0 } ∧
    ({ room with currentVideo := video, isPlaying := false, currentTime := 0 } : Room).users
      = room.users := by
  refine ⟨?_, ?_, rfl⟩
  · simp only [updateVideo, h]
  · simp only [updateVideo, h, findRoom?_resetCleanupTimer, findRoom?_updateActivity,
      findRoom?_setRoom_self]

/-- C6 witness: the host replaces v1 (playing at position 120) by v2; the
state becomes paused at position 0 and the member list stays Alice, Bob. -/
theorem c6_updateVideo_resets_playback_witness :
    (updateVideo storePlaying 9 "r" (some v2)).2 =
      some { roomPlaying with currentVideo := some v2, isPlaying := false, currentTime := 0 } ∧
    findRoom? (updateVideo storePlaying 9 "r" (some v2)).1 "r" =
      some { roomPlaying with currentVideo := some v2, isPlaying := false, currentTime := 0 } ∧
    ({ roomPlaying with currentVideo := some v2, isPlaying := false, currentTime := 0 } : Room).users
      = roomPlaying.users :=
  c6_updateVideo_resets_playback storePlaying 9 "r" (some v2) roomPlaying (by decide)

/-- C5 counterexample: room r already exists with members Alice and Bob,
yet a create request for the same roomId is answered 200 (no Conflict) and
the stored member list is replaced by the new sole host Carol. -/
theorem c5_counterexample :
    findRoom? store2 "r" = some room2 ∧ room2.users = [alice, bob] ∧
    (apiPost store2 3 "r" { action := "create", user := carol, roomName := "Second" }).2.status
      = 200 ∧
    (findRoom? (apiPost store2 3 "r"
        { action := "create", user := carol, roomName := "Second" }).1 "r").map (·.users)
      = some [{ carol with isHost := true }] := by decide

/-- C5 amended: createRoom never fails with Conflict. For any store —
including one where roomId already exists with members — it
unconditionally stores a fresh room with hostUser as its sole, host
member, discarding any prior room's member list, video reference and
playback state. -/
theorem c5_createRoom_unconditional (s : RoomStore) (now : Nat) (roomId roomName : String)
    (hostUser : User) :
    (createRoom s now roomId roomName hostUser).2 =
      { id := roomId, name := roomName, currentVideo := none, users := [hostUser],
        isPlaying := false, currentTime := 0, createdAt := now } ∧
    findRoom? (createRoom s now roomId roomName hostUser).1 roomId =
      some { id := roomId, name := roomName, currentVideo := none, users := [hostUser],
             isPlaying := false, currentTime := 0, createdAt := now } := by
  refine ⟨rfl, ?_⟩
  simp only [createRoom, findRoom?_resetCleanupTimer, findRoom?_updateActivity,
    findRoom?_setRoom_self]

/-- C2: in a room whose member array (ordered by join time) is
A(host), B, C with B joined before C, when the host A leaves, the member
promoted to host is exactly B, the earliest-joined remaining member: the
code promotes the head of the remaining join-ordered array, which is
deterministic. -/
theorem c2_leaveRoom_promotes_earliest (s : RoomStore) (now : Nat) (roomId : String)
    (A B C : User) (room : Room)
    (h : findRoom? s roomId = some room)
    (husers : room.users = [A, B, C])
    (hAhost : A.isHost = true) (hBhost : B.isHost = false) (hChost : C.isHost = false)
    (hB : ¬ B.id = A.id) (hC : ¬ C.id = A.id) :
    (leaveRoom s now roomId A.id).2 =
      some { room with users := [{ B with isHost := true }, C] } ∧
    findRoom? (leaveRoom s now roomId A.id).1 roomId =
      some { room with users := [{ B with isHost := true }, C] } := by
  constructor
  · simp [leaveRoom, h, husers, hB, hC, hBhost, hChost, promoteFirst]
  · simp [leaveRoom, h, husers, hB, hC, hBhost, hChost, promoteFirst,
      findRoom?_resetCleanupTimer, findRoom?_updateActivity, findRoom?_setRoom_self]

/-- C2 witness: Alice (host, joined first), Bob, Carol; Alice leaves and
Bob — the earliest-joined remaining member — becomes host. -/
theorem c2_leaveRoom_promotes_earliest_witness :
    (leaveRoom store3 9 "r" alice.id).2 =
      some { room3 with users := [{ bob with isHost := true }, carol] } ∧
    findRoom? (leaveRoom store3 9 "r" alice.id).1 "r" =
      some { room3 with users := [{ bob with isHost := true }, carol] } :=
  c2_leaveRoom_promotes_earliest store3 9 "r" alice bob carol room3
    (by decide) (by decide) (by decide) (by decide) (by decide) (by decide) (by decide)

/-- C3: when the last member leaves, the room is not deleted
synchronously: it stays retrievable with its prior video reference, a
cleanup timer is pending, the timer firing while the room is still empty
deletes it, a join during the window cancels the pending timer (after
which the fire is a no-op and the room is reused with its prior video),
and a timer that fires on a non-empty room never deletes it. -/
theorem c3_grace_window_deferred_deletion (s : RoomStore) (now : Nat) (roomId : String)
    (u : User) (room : Room)
    (h : findRoom? s roomId = some room) (husers : room.users = [u]) :
    findRoom? (leaveRoom s now roomId u.id).1 roomId = some { room with users := [] } ∧
    roomId ∈ (leaveRoom s now roomId u.id).1.cleanupPending ∧
    findRoom? (cleanupTimerFire (leaveRoom s now roomId u.id).1 roomId) roomId = none ∧
    (∀ now2 v,
      roomId ∉ (joinRoom (leaveRoom s now roomId u.id).1 now2 roomId v).1.cleanupPending ∧
      cleanupTimerFire (joinRoom (leaveRoom s now roomId u.id).1 now2 roomId v).1 roomId
        = (joinRoom (leaveRoom s now roomId u.id).1 now2 roomId v).1 ∧
      findRoom? (joinRoom (leaveRoom s now roomId u.id).1 now2 roomId v).1 roomId
        = some { room with users := [v] }) ∧
    (∀ s2 room2, findRoom? s2 roomId = some room2 → room2.users ≠ [] →
      findRoom? (cleanupTimerFire s2 roomId) roomId = some room2) := by
  have h1 : findRoom? (leaveRoom s now roomId u.id).1 roomId
      = some { room with users := [] } := by
    simp [leaveRoom, h, husers, findRoom?_scheduleRoomCleanup, findRoom?_setRoom_self]
  have hpend : roomId ∈ (leaveRoom s now roomId u.id).1.cleanupPending := by
    simp [leaveRoom, h, husers, scheduleRoomCleanup]
  refine ⟨h1, hpend, ?_, ?_, ?_⟩
  · rw [cleanupTimerFire, if_pos hpend, h1]
    simp [findRoom?, find?_key_filter_ne]
  · intro now2 v
    have hjoin : findRoom? (joinRoom (leaveRoom s now roomId u.id).1 now2 roomId v).1 roomId
        = some { room with users := [v] } := by
      simp [joinRoom, h1, findRoom?_resetCleanupTimer, findRoom?_updateActivity,
        findRoom?_setRoom_self]
    have hnot : roomId ∉
        (joinRoom (leaveRoom s now roomId u.id).1 now2 roomId v).1.cleanupPending := by
      simp [joinRoom, h1, resetCleanupTimer, List.mem_filter]
    refine ⟨hnot, ?_, hjoin⟩
    rw [cleanupTimerFire, if_neg hnot]
  · intro s2 room2 h2 hne
    rw [cleanupTimerFire]
    by_cases hmem : roomId ∈ s2.cleanupPending
    · have hlen : ¬ room2.users.length = 0 := by
        intro h0
        exact hne (List.length_eq_zero.mp h0)
      rw [if_pos hmem, h2]
      simp only [hlen, if_false]
      exact h2
    · rw [if_neg hmem]
      exact h2

/-- C3 witness: Alice, sole member of room r holding video v1, leaves; the
room stays retrievable with v1, a cleanup is pending, firing the timer
while empty deletes the room, and a rejoin by Bob cancels the cleanup and
restores the room with v1 intact. -/
theorem c3_grace_window_deferred_deletion_witness :
    findRoom? (leaveRoom storeSolo 9 "r" alice.id).1 "r" = some { roomSolo with users := [] } ∧
    "r" ∈ (leaveRoom storeSolo 9 "r" alice.id).1.cleanupPending ∧
    findRoom? (cleanupTimerFire (leaveRoom storeSolo 9 "r" alice.id).1 "r") "r" = none ∧
    "r" ∉ (joinRoom (leaveRoom storeSolo 9 "r" alice.id).1 10 "r" bob).1.cleanupPending ∧
    findRoom? (joinRoom (leaveRoom storeSolo 9 "r" alice.id).1 10 "r" bob).1 "r"
      = some { roomSolo with users := [bob] } :=
  have hmain := c3_grace_window_deferred_deletion storeSolo 9 "r" alice roomSolo
    (by decide) (by decide)
  ⟨hmain.1, hmain.2.1, hmain.2.2.1, (hmain.2.2.2.1 10 bob).1, (hmain.2.2.2.1 10 bob).2.2⟩

/-- C10: when the current host re-joins through the API (which always
writes the member with host flag false and the store replaces the prior
row), the room ends up non-empty with zero host members; and no join,
updateVideo or updateVideoState call re-creates a host, only leaveRoom's
failover branch does, promoting exactly one member. -/
theorem c10_host_rejoin_loses_host (s : RoomStore) (now : Nat) (roomId : String)
    (b : PostBody) (room : Room) (hm : User)
    (hfind : findRoom? s roomId = some room)
    (hmem : hm ∈ room.users) (hhost : hm.isHost = true)
    (hcount : countHosts room.users = 1)
    (haction : b.action = "join") (hid : b.user.id = hm.id) :
    ((apiPost s now roomId b).2.status = 200 ∧
      ∃ room2, findRoom? (apiPost s now roomId b).1 roomId = some room2 ∧
        room2.users ≠ [] ∧ countHosts room2.users = 0) ∧
    (∀ s2 now2 (user : User) room2, user.isHost = false →
      findRoom? s2 roomId = some room2 → countHosts room2.users = 0 →
      ∃ room3, findRoom? (joinRoom s2 now2 roomId user).1 roomId = some room3 ∧
        countHosts room3.users = 0) ∧
    (∀ s2 now2 video room2, findRoom? s2 roomId = some room2 →
      ∃ room3, findRoom? (updateVideo s2 now2 roomId video).1 roomId = some room3 ∧
        room3.users = room2.users) ∧
    (∀ s2 now2 playing pos room2, findRoom? s2 roomId = some room2 →
      ∃ room3, findRoom? (updateVideoState s2 now2 roomId playing pos).1 roomId = some room3 ∧
        room3.users = room2.users) ∧
    (∀ s2 now2 uid room2, findRoom? s2 roomId = some room2 →
      countHosts room2.users = 0 →
      room2.users.filter (fun x => decide ¬ (x.id = uid)) ≠ [] →
      ∃ room3, findRoom? (leaveRoom s2 now2 roomId uid).1 roomId = some room3 ∧
        countHosts room3.users = 1) := by
  refine ⟨⟨?_, ?_⟩, ?_, ?_, ?_, ?_⟩
  · simp [apiPost, haction, joinRoom, hfind]
  · refine ⟨{ room with users :=
        room.users.filter (fun x => decide ¬ (x.id = b.user.id))
          ++ [⟨b.user.id, b.user.name, false⟩] }, ?_, by simp, ?_⟩
    · simp [apiPost, haction, joinRoom, hfind, findRoom?_resetCleanupTimer,
        findRoom?_updateActivity, findRoom?_setRoom_self]
    · show countHosts (room.users.filter (fun x => decide ¬ (x.id = b.user.id))
          ++ [⟨b.user.id, b.user.name, false⟩]) = 0
      rw [countHosts_append, hid]
      have h0 := countHosts_filter_out_host room.users hm hmem hhost hcount
      have h1 : countHosts [(⟨hm.id, b.user.name, false⟩ : User)] = 0 := by
        simp [countHosts]
      omega
  · intro s2 now2 user room2 huser h2 hz
    refine ⟨{ room2 with users :=
        room2.users.filter (fun x => decide ¬ (x.id = user.id)) ++ [user] }, ?_, ?_⟩
    · simp [joinRoom, h2, findRoom?_resetCleanupTimer,
        findRoom?_updateActivity, findRoom?_setRoom_self]
    · show countHosts (room2.users.filter (fun x => decide ¬ (x.id = user.id)) ++ [user]) = 0
      rw [countHosts_append]
      have hle := countHosts_filter_le room2.users (fun x => decide ¬ (x.id = user.id))
      have h1 : countHosts [user] = 0 := by simp [countHosts, huser]
      omega
  · intro s2 now2 video room2 h2
    refine ⟨{ room2 with currentVideo := video, currentTime := 0, isPlaying := false },
      ?_, rfl⟩
    simp [updateVideo, h2, findRoom?_resetCleanupTimer, findRoom?_updateActivity,
      findRoom?_setRoom_self]
  · intro s2 now2 playing pos room2 h2
    refine ⟨{ room2 with isPlaying := playing, currentTime := pos }, ?_, rfl⟩
    simp [updateVideoState, h2, findRoom?_resetCleanupTimer, findRoom?_updateActivity,
      findRoom?_setRoom_self]
  · intro s2 now2 uid room2 h2 hz hne
    have hlen : ¬ (room2.users.filter (fun x => decide ¬ (x.id = uid))).length = 0 := by
      intro h0
      exact hne (List.length_eq_zero.mp h0)
    have hany : ¬ ((room2.users.filter (fun x => decide ¬ (x.id = uid))).any
        (fun u => u.isHost) = true) := by
      have hzf : countHosts (room2.users.filter (fun x => decide ¬ (x.id = uid))) = 0 := by
        have hle := countHosts_filter_le room2.users (fun x => decide ¬ (x.id = uid))
        omega
      rw [not_any_host_of_countHosts_eq_zero hzf]
      simp
    refine Exists.intro { room2 with users := promoteFirst (room2.users.filter (fun x => decide ¬ (x.id = uid))) } ⟨?_, ?_⟩
    · rw [leaveRoom, h2]
      simp only [hlen, if_false, hany]
      simp [findRoom?_resetCleanupTimer, findRoom?_updateActivity, findRoom?_setRoom_self]
    · show countHosts
          (promoteFirst (room2.users.filter (fun x => decide ¬ (x.id = uid)))) = 1
      refine countHosts_promoteFirst _ ?_ hne
      have hle := countHosts_filter_le room2.users (fun x => decide ¬ (x.id = uid))
      omega

/-- C10 witness: Alice (host) re-joins room r with her own userId; the
room then has members but no host; Bob joining keeps it hostless;
updateVideo keeps the member rows; and a leave that keeps survivors
promotes exactly one host. -/
theorem c10_host_rejoin_loses_host_witness :
    ((apiPost store2 5 "r" { action := "join", user := alice }).2.status = 200 ∧
      ∃ room2, findRoom? (apiPost store2 5 "r" { action := "join", user := alice }).1 "r"
          = some room2 ∧ room2.users ≠ [] ∧ countHosts room2.users = 0) :=
  (c10_host_rejoin_loses_host store2 5 "r" { action := "join", user := alice }
    room2 alice (by decide) (by decide) (by decide) (by decide) (by decide) (by decide)).1

/-- C4 counterexample: Bob is not the host of room r, yet his updateState
request is answered 200 and mutates the playback state (no Forbidden, not
unchanged); and a promoteUser request is answered 400 Invalid action, not
403 Forbidden. -/
theorem c4_counterexample :
    room2.users = [alice, bob] ∧ bob.isHost = false ∧
    (findRoom? store2 "r").map (fun r => (r.isPlaying, r.currentTime)) = some (false, 0) ∧
    (apiPost store2 5 "r" { action := "updateState", user := bob, isPlaying := true, currentTime := 42 }).2.status = 200 ∧
    (findRoom? (apiPost store2 5 "r" { action := "updateState", user := bob, isPlaying := true, currentTime := 42 }).1 "r").map (fun r => (r.isPlaying, r.currentTime)) = some (true, 42) ∧
    (apiPost store2 5 "r" { action := "promoteUser", user := bob, targetUserId := "b" }).2.status = 400 := by
  decide

/-- C4 amended: the POST handler has no server-side host check at all. A
promoteUser or demoteUser action has no handler and falls to the default
case, answered 400 Invalid action with the store unchanged; an updateState
action is applied for any caller (the handler never reads the user field),
answering 200 and overwriting the room's isPlaying and currentTime. -/
theorem c4_no_server_side_host_gating (s : RoomStore) (now : Nat) (roomId : String)
    (b : PostBody) :
    ((b.action = "promoteUser" ∨ b.action = "demoteUser") →
      apiPost s now roomId b = (s, { status := 400, room := none })) ∧
    (∀ room, b.action = "updateState" → findRoom? s roomId = some room →
      (apiPost s now roomId b).2 = { status := 200, room := some { room with isPlaying := b.isPlaying, currentTime := b.currentTime } } ∧
      findRoom? (apiPost s now roomId b).1 roomId
        = some { room with isPlaying := b.isPlaying, currentTime := b.currentTime }) := by
  constructor
  · intro h
    rcases h with h | h <;> simp [apiPost, h]
  · intro room haction hfind
    constructor
    · simp [apiPost, haction, updateVideoState, hfind]
    · simp [apiPost, haction, updateVideoState, hfind, findRoom?_resetCleanupTimer,
        findRoom?_updateActivity, findRoom?_setRoom_self]

/-- C4 amended witness: a concrete promoteUser request is answered 400
with the store untouched, and Bob's (non-host) updateState request is
answered 200 with the new playback state. -/
theorem c4_no_server_side_host_gating_witness :
    apiPost store2 5 "r" { action := "promoteUser", user := bob } = (store2, { status := 400, room := none }) ∧
    (apiPost store2 5 "r" { action := "updateState", user := bob, isPlaying := true, currentTime := 42 }).2 = { status := 200, room := some { room2 with isPlaying := true, currentTime := 42 } } :=
  ⟨(c4_no_server_side_host_gating store2 5 "r" { action := "promoteUser", user := bob }).1
      (Or.inl rfl),
   ((c4_no_server_side_host_gating store2 5 "r" { action := "updateState", user := bob, isPlaying := true, currentTime := 42 }).2
      room2 rfl (by decide)).1⟩

theorem videoKindIs_local_not_youtube (v : Option Video)
    (h : videoKindIs v VideoKind.local = true) :
    videoKindIs v VideoKind.youtube = false := by
  cases v with
  | none => simp [videoKindIs] at h
  | some video =>
    simp only [videoKindIs, decide_eq_true_eq] at h
    simp only [videoKindIs, decide_eq_false_iff_not]
    rw [h]
    intro hcontra
    cases hcontra

/-- C7: on a tick that passes the frequency gate, with no seek, scroll or
mobile-buffering guard active, a corrective seek to the authoritative
position is issued if and only if the drift exceeds the device and source
specific threshold: 2s desktop and 3s mobile for the embeddable (YouTube)
branch, 2s desktop and 4s mobile for the local-file branch. -/
theorem c7_seek_iff_drift_above_threshold (i : SyncInput)
    (htick : ¬ (i.now - i.lastSync < (if i.isMobile then 2000 else 1000))) :
    (videoKindIs i.video VideoKind.youtube = true → i.ytPresent = true → i.isReady = true →
      (((syncVideo i).seekTo = some i.currentTime ↔
          |i.ytCurrentTime - i.currentTime| > (if i.isMobile then (3 : Rat) else 2)) ∧
       ((syncVideo i).seekTo = none ↔
          ¬ |i.ytCurrentTime - i.currentTime| > (if i.isMobile then (3 : Rat) else 2)))) ∧
    (videoKindIs i.video VideoKind.local = true → i.elPresent = true →
      i.el.seeking = false → i.isScrolling = false →
      ¬ (i.isMobile = true ∧ i.el.readyState < 2) →
      (((syncVideo i).seekTo = some i.currentTime ↔
          |i.el.currentTime - i.currentTime| > (if i.isMobile then (4 : Rat) else 2)) ∧
       ((syncVideo i).seekTo = none ↔
          ¬ |i.el.currentTime - i.currentTime| > (if i.isMobile then (4 : Rat) else 2)))) := by
  constructor
  · intro hyk hyp hr
    rw [syncVideo, if_neg htick]
    simp only [hyk, hyp, hr, Bool.and_self, Bool.true_and, if_true]
    by_cases hd : |i.ytCurrentTime - i.currentTime| > (if i.isMobile then (3 : Rat) else 2)
    · simp [hd]
    · simp [hd]
  · intro hlk hel hseek hscroll hguard
    have hnyk : videoKindIs i.video VideoKind.youtube = false :=
      videoKindIs_local_not_youtube i.video hlk
    have hmb : (i.isMobile && decide (i.el.readyState < 2)) = false := by
      cases hm : i.isMobile with
      | false => rfl
      | true =>
        simp only [Bool.true_and, decide_eq_false_iff_not]
        exact fun hlt => hguard ⟨hm, hlt⟩
    rw [syncVideo, if_neg htick]
    simp only [hnyk, Bool.false_and, Bool.false_eq_true, if_false, hlk, hel,
      Bool.and_self, Bool.true_and, if_true, hseek, hscroll, hmb, Bool.or_self,
      Bool.false_or, Bool.or_false]
    by_cases hd : |i.el.currentTime - i.currentTime| > (if i.isMobile then (4 : Rat) else 2)
    · simp [hd]
    · simp [hd]

/-- C7 witness: a desktop local-file viewer with drift 0.5s under the 2s
threshold issues no seek, and one with drift 5s issues a seek to the
authoritative position 95. -/
theorem c7_seek_iff_drift_above_threshold_witness :
    (syncVideo smallDriftTick).seekTo = none ∧
    (syncVideo bigDriftTick).seekTo = some 95 :=
  ⟨((c7_seek_iff_drift_above_threshold smallDriftTick (by decide)).2
      (by decide) (by decide) (by decide) (by decide) (by decide)).2.mpr (by
        simp only [smallDriftTick]
        rw [show (100.5 : Rat) - 101 = -(1/2) by norm_num, abs_neg,
          abs_of_nonneg (by norm_num)]
        norm_num),
   ((c7_seek_iff_drift_above_threshold bigDriftTick (by decide)).2
      (by decide) (by decide) (by decide) (by decide) (by decide)).1.mpr (by
        simp only [bigDriftTick]
        rw [show (90 : Rat) - 95 = -(5) by norm_num, abs_neg,
          abs_of_nonneg (by norm_num)]
        norm_num)⟩

/-- C8 counterexample: a mobile tick on a buffering local element whose
authoritative state is playing while the element is paused issues no play
call at all, contradicting the claim that play/pause reconciliation still
runs while the drift seek is suspended. -/
theorem c8_counterexample :
    bufferingTick.isMobile = true ∧ bufferingTick.el.readyState < 2 ∧
    bufferingTick.isPlaying = true ∧ bufferingTick.el.paused = true ∧
    (syncVideo bufferingTick).playIssued = false ∧
    (syncVideo bufferingTick).seekTo = none := by
  decide

/-- C8 amended: while the mobile client's local element is buffering, the
local-video branch returns before both the drift seek (step 3) and the
play/pause reconciliation (step 4): the tick only updates the buffering
flag and issues neither seek nor play nor pause. -/
theorem c8_mobile_buffering_suspends_tick (i : SyncInput)
    (htick : ¬ (i.now - i.lastSync < (if i.isMobile then 2000 else 1000)))
    (hlk : videoKindIs i.video VideoKind.local = true)
    (hel : i.elPresent = true)
    (hmob : i.isMobile = true) (hbuf : i.el.readyState < 2) :
    syncVideo i = { seekTo := none, playIssued := false, pauseIssued := false,
                    setBuffering := some true, lastSyncUpdated := false } := by
  have hnyk : videoKindIs i.video VideoKind.youtube = false :=
    videoKindIs_local_not_youtube i.video hlk
  rw [syncVideo, if_neg htick]
  simp [hnyk, hlk, hel, hmob, hbuf]

/-- C8 amended witness: the concrete buffering tick produces exactly the
buffering-flag update and nothing else. -/
theorem c8_mobile_buffering_suspends_tick_witness :
    syncVideo bufferingTick = { seekTo := none, playIssued := false, pauseIssued := false,
                                setBuffering := some true, lastSyncUpdated := false } :=
  c8_mobile_buffering_suspends_tick bufferingTick (by decide) (by decide) (by decide)
    (by decide) (by decide)

theorem chatStoreState_eq (history : List ChatMessage) :
    chatStoreState history = history.drop (history.length - 100) := by
  induction history using List.reverseRecOn with
  | nil => rfl
  | append_singleton hs m ih =>
    rw [chatStoreState, List.foldl_append, List.foldl_cons, List.foldl_nil,
      ← chatStoreState, ih, addMessage]
    simp only [List.length_append, List.length_drop, List.length_singleton]
    by_cases hbig : hs.length ≥ 100
    · have hd : hs.length - (hs.length - 100) = 100 := by omega
      rw [hd, if_pos (by omega)]
      simp only [Nat.add_sub_cancel_left, Nat.reduceSub]
      rw [List.drop_append_of_le_length (by rw [List.length_drop]; omega)]
      rw [List.drop_drop]
      rw [List.drop_append_of_le_length (by omega)]
      have hidx : hs.length - 100 + 1 = hs.length + 1 - 100 := by omega
      rw [hidx]
    · rw [if_neg (by omega)]
      have h0 : hs.length - 100 = 0 := by omega
      have h1 : hs.length + 1 - 100 = 0 := by omega
      rw [h0, h1]
      simp

theorem getMessages_length_le (stored : List ChatMessage) :
    (getMessages stored).length ≤ 100 := by
  simp only [getMessages, List.length_reverse, List.length_take]
  omega

theorem getMessages_sorted (stored : List ChatMessage) :
    List.Pairwise (fun a b => a.timestamp ≤ b.timestamp) (getMessages stored) := by
  have hs : List.Sorted msgDesc (stored.insertionSort msgDesc) :=
    List.sorted_insertionSort msgDesc stored
  have ht : List.Pairwise msgDesc ((stored.insertionSort msgDesc).take 100) :=
    List.Pairwise.sublist (List.take_sublist 100 _) hs
  rw [getMessages, List.pairwise_reverse]
  exact ht

theorem getMessages_most_recent (stored : List ChatMessage) :
    ∃ rest : List ChatMessage,
      stored.Perm (getMessages stored ++ rest) ∧
      ∀ x ∈ getMessages stored, ∀ y ∈ rest, y.timestamp ≤ x.timestamp := by
  refine ⟨(stored.insertionSort msgDesc).drop 100, ?_, ?_⟩
  · have hperm : (stored.insertionSort msgDesc).Perm stored :=
      List.perm_insertionSort msgDesc stored
    have h1 : stored.Perm ((stored.insertionSort msgDesc).take 100
        ++ (stored.insertionSort msgDesc).drop 100) := by
      rw [List.take_append_drop]
      exact hperm.symm
    have h2 : ((stored.insertionSort msgDesc).take 100).Perm (getMessages stored) :=
      (List.reverse_perm _).symm
    exact h1.trans (h2.append_right _)
  · intro x hx y hy
    have hs : List.Sorted msgDesc (stored.insertionSort msgDesc) :=
      List.sorted_insertionSort msgDesc stored
    have h2 : List.Pairwise msgDesc ((stored.insertionSort msgDesc).take 100
        ++ (stored.insertionSort msgDesc).drop 100) := by
      rw [List.take_append_drop]
      exact hs
    obtain h3 := (List.pairwise_append.mp h2).2.2
    have hx2 : x ∈ (stored.insertionSort msgDesc).take 100 := by
      rw [getMessages, List.mem_reverse] at hx
      exact hx
    exact h3 x hx2 y hy

/-- C9: chat retrieval (order by created_at descending, limit 100, then
reverse) returns at most 100 messages, in ascending timestamp order, and
these are the most recent of the stored messages regardless of the store's
native order; the in-memory ChatStore retains exactly the 100 most recent
messages per room, dropping the oldest first. -/
theorem c9_chat_limit_order_retention :
    (∀ stored : List ChatMessage, (getMessages stored).length ≤ 100) ∧
    (∀ stored : List ChatMessage,
      List.Pairwise (fun a b => a.timestamp ≤ b.timestamp) (getMessages stored)) ∧
    (∀ stored : List ChatMessage, ∃ rest : List ChatMessage,
      stored.Perm (getMessages stored ++ rest) ∧
      ∀ x ∈ getMessages stored, ∀ y ∈ rest, y.timestamp ≤ x.timestamp) ∧
    (∀ history : List ChatMessage,
      chatStoreState history = history.drop (history.length - 100) ∧
      (chatStoreState history).length ≤ 100) :=
  ⟨getMessages_length_le, getMessages_sorted, getMessages_most_recent,
   fun history => ⟨chatStoreState_eq history, by
     rw [chatStoreState_eq]
     simp only [List.length_drop]
     omega⟩⟩

/-- C9 witness: three messages stored in native order (timestamps 5, 3, 9)
are returned as the ascending list (3, 5, 9), at most 100 long, and the
ChatStore keeps all three. -/
theorem c9_chat_limit_order_retention_witness :
    (getMessages [m1, m2, m3]).length ≤ 100 ∧
    List.Pairwise (fun a b => a.timestamp ≤ b.timestamp) (getMessages [m1, m2, m3]) ∧
    chatStoreState [m1, m2, m3] = [m1, m2, m3] ∧
    getMessages [m1, m2, m3] = [m2, m1, m3] :=
  ⟨c9_chat_limit_order_retention.1 [m1, m2, m3],
   c9_chat_limit_order_retention.2.1 [m1, m2, m3],
   by simpa using (c9_chat_limit_order_retention.2.2.2 [m1, m2, m3]).1,
   by decide⟩

end WatchParty
